import Mathlib

/-!
Shallow embedding of the delivery-routing and production-scheduling
prototypes (`scripts/optimizers/delivery_router.py` and
`scripts/optimizers/production_scheduler.py`).

Numeric modelling: Python floats are modelled as rationals so that the
planning algorithms stay executable and decidable; the transcendental
haversine geometry of `Location.distance_to` is modelled over the reals.
Python `datetime` values inside the planning day are modelled as rational
hours since midnight of the target date.  The `while remaining` loop of
the nearest-neighbor builder is embedded with explicit fuel equal to the
candidate-pool length: every iteration of the source loop removes exactly
one element from `remaining`, so the pool length bounds the iteration
count and the fuel never runs out before the loop's own exit conditions.
-/

namespace Routing

/-- Python dataclass `Location` (name, address, latitude, longitude in
degrees). -/
structure Location where
  name : String
  address : String
  lat : ℚ
  lon : ℚ
deriving DecidableEq

/-- Python `math.radians`: degrees to radians. -/
noncomputable def radians (x : ℚ) : ℝ := (x : ℝ) * Real.pi / 180

/-- `Location.distance_to`: if either latitude is zero, return the fixed
fallback 10.0 km; otherwise the haversine great-circle distance with
earth radius 6371 km. -/
noncomputable def Location.distance_to (self other : Location) : ℝ :=
  if self.lat = 0 ∨ other.lat = 0 then 10
  else
    let lat1 := radians self.lat
    let lon1 := radians self.lon
    let lat2 := radians other.lat
    let lon2 := radians other.lon
    let dlat := lat2 - lat1
    let dlon := lon2 - lon1
    let a := Real.sin (dlat / 2) ^ 2 +
      Real.cos lat1 * Real.cos lat2 * Real.sin (dlon / 2) ^ 2
    6371 * (2 * Real.arcsin (Real.sqrt a))

/-- Modelled from the spec: the geospatial contract's "otherwise" branch,
"compute great-circle distance using a spherical-earth approximation
(mean radius 6371 km) from latitude/longitude in degrees, converted to
radians, via the standard haversine formula".  Used to compare the code's
`Location.distance_to` against the spec's description. -/
noncomputable def haversineSpec (p q : Location) : ℝ :=
  let lat1 := radians p.lat
  let lon1 := radians p.lon
  let lat2 := radians q.lat
  let lon2 := radians q.lon
  let dlat := lat2 - lat1
  let dlon := lon2 - lon1
  let a := Real.sin (dlat / 2) ^ 2 +
    Real.cos lat1 * Real.cos lat2 * Real.sin (dlon / 2) ^ 2
  6371 * (2 * Real.arcsin (Real.sqrt a))

/-- Modelled from the spec: a location is the sentinel "unset" value when
both axes are zero. -/
def sentinel (p : Location) : Prop := p.lat = 0 ∧ p.lon = 0

/-- Python dataclass `Shipment`. -/
structure Shipment where
  shipment_id : String
  customer : String
  address : String
  weight_kg : ℚ
  pallets : ℤ := 1
  time_window : String := "ANY"
  lat : ℚ := 0
  lon : ℚ := 0
deriving DecidableEq

/-- `Shipment.location` property. -/
def Shipment.location (s : Shipment) : Location :=
  ⟨s.customer, s.address, s.lat, s.lon⟩

/-- Python dataclass `Vehicle`. -/
structure Vehicle where
  vehicle_id : String
  name : String
  capacity_kg : ℚ
  capacity_pallets : ℤ
  cost_per_km : ℚ := 200
  hourly_rate : ℚ := 15000
  fixed_cost : ℚ := 50000
  available : Bool := true
deriving DecidableEq

/-- Python dataclass `Route`. -/
structure Route where
  vehicle_id : String
  stops : List Shipment := []
  total_distance_km : ℚ := 0
  total_weight_kg : ℚ := 0
  total_pallets : ℤ := 0
  estimated_time_hours : ℚ := 0
deriving DecidableEq

/-- The module-level `DEPOT` constant. -/
def DEPOT : Location := ⟨"세영화학", "경기도 화성시", 37.2, 127.0⟩

/-- The module-level `VEHICLES` dict, as an insertion-ordered
association list. -/
def VEHICLES : List (String × Vehicle) :=
  [("V1", ⟨"V1", "5톤_1", 5000, 10, 200, 15000, 50000, true⟩),
   ("V2", ⟨"V2", "5톤_2", 5000, 10, 200, 15000, 50000, true⟩),
   ("V3", ⟨"V3", "11톤", 11000, 20, 350, 18000, 80000, true⟩)]

/-- Python `dict.get` on a string-keyed association list. -/
def dict_get {α : Type} (table : List (String × α)) (key : String) : Option α :=
  (table.find? fun kv => decide (kv.1 = key)).map fun kv => kv.2

/-- The module-level constant `AVERAGE_SPEED` (km/h). -/
def AVERAGE_SPEED : ℚ := 40

/-- The module-level constant `UNLOAD_TIME_MIN` (minutes per stop). -/
def UNLOAD_TIME_MIN : ℚ := 15

/-- `Route.cost` property: resolves the vehicle by looking up the route's
`vehicle_id` in the module-level `VEHICLES` table; `0.0` when absent;
otherwise fuel plus labor plus (fixed cost when the route has stops). -/
def Route.cost (r : Route) : ℚ :=
  match dict_get VEHICLES r.vehicle_id with
  | none => 0
  | some vehicle =>
    r.total_distance_km * vehicle.cost_per_km +
      r.estimated_time_hours * vehicle.hourly_rate +
      (if r.stops.isEmpty then 0 else vehicle.fixed_cost)

/-- Python `min(xs, key=key)` over a nonempty list `x :: xs`: a left fold
that replaces the current best only on a strictly smaller key, so the
first minimum wins ties. -/
def minBy {α : Type} (key : α → ℚ) (x : α) (xs : List α) : α :=
  xs.foldl (fun best s => if key s < key best then s else best) x

/-- The capacity-feasibility filter of `nearest_neighbor`: adding `s`
keeps cumulative weight and pallets within the vehicle's capacities. -/
def feasibleFor (route : Route) (vehicle : Vehicle) (s : Shipment) : Bool :=
  decide (route.total_weight_kg + s.weight_kg ≤ vehicle.capacity_kg) &&
    decide (route.total_pallets + s.pallets ≤ vehicle.capacity_pallets)

/-- The `while remaining` loop of `DeliveryRouter.nearest_neighbor`,
taking the distance function as a parameter (the source calls the
real-valued `Location.distance_to`; a rational-valued distance keeps the
selection decidable).  Returns the route together with the final current
location, which the caller needs for the return-to-depot leg. -/
def nnLoop (d : Location → Location → ℚ) (vehicle : Vehicle) :
    ℕ → List Shipment → Location → Route → Route × Location
  | 0, _, cur, route => (route, cur)
  | fuel + 1, remaining, cur, route =>
    if remaining.isEmpty then (route, cur)
    else
      match remaining.filter (feasibleFor route vehicle) with
      | [] => (route, cur)
      | f :: fs =>
        let nearest := minBy (fun s => d cur s.location) f fs
        nnLoop d vehicle fuel (remaining.erase nearest) nearest.location
          { route with
            stops := route.stops ++ [nearest],
            total_weight_kg := route.total_weight_kg + nearest.weight_kg,
            total_pallets := route.total_pallets + nearest.pallets,
            total_distance_km := route.total_distance_km + d cur nearest.location }

/-- `DeliveryRouter.nearest_neighbor`: run the greedy loop from the
depot, then, if any stop was assigned, add the return-to-depot distance
and derive the elapsed time. -/
def nearest_neighbor (d : Location → Location → ℚ) (depot : Location)
    (shipments : List Shipment) (vehicle : Vehicle) : Route :=
  let p := nnLoop d vehicle shipments.length shipments depot
    { vehicle_id := vehicle.vehicle_id }
  if p.1.stops.isEmpty then p.1
  else
    let dist := p.1.total_distance_km + d p.2 depot
    { p.1 with
      total_distance_km := dist,
      estimated_time_hours :=
        dist / AVERAGE_SPEED + (p.1.stops.length : ℚ) * UNLOAD_TIME_MIN / 60 }

/-- The time-window rank used by `create_plan`'s sort key:
`0 if s.time_window == "AM" else (1 if s.time_window == "PM" else 2)`. -/
def twRank (s : Shipment) : ℤ :=
  if s.time_window = "AM" then 0 else if s.time_window = "PM" then 1 else 2

/-- The ordering relation induced by `create_plan`'s sort key
`(twRank s, -s.weight_kg)` compared lexicographically; Python's stable
`sorted` is modelled by a stable merge sort under this relation. -/
def shipLE (a b : Shipment) : Bool :=
  decide (twRank a < twRank b) ||
    (decide (twRank a = twRank b) && decide (-a.weight_kg ≤ -b.weight_kg))

/-- The ordering relation induced by the vehicle sort key
`-vehicle.capacity_kg` in `create_plan`. -/
def vehLE (a b : String × Vehicle) : Bool :=
  decide (-a.2.capacity_kg ≤ -b.2.capacity_kg)

/-- The assigned-shipment removal loop of `create_plan`:
`for stop in route.stops: if stop in remaining: remaining.remove(stop)`. -/
def removeStops (stops remaining : List Shipment) : List Shipment :=
  stops.foldl (fun rem s => if s ∈ rem then rem.erase s else rem) remaining

/-- Python dataclass `RoutePlan` (the target date is kept abstract as an
integer day stamp; the planning logic never reads it). -/
structure RoutePlan where
  date : ℤ
  routes : List Route := []
  unassigned : List Shipment := []
deriving DecidableEq

/-- The per-vehicle step of `create_plan`'s `for vehicle_id, vehicle in
sorted(...)` loop, acting on the pair (routes so far, remaining pool). -/
def planStep (d : Location → Location → ℚ) (depot : Location)
    (acc : List Route × List Shipment) (kv : String × Vehicle) :
    List Route × List Shipment :=
  if kv.2.available = false ∨ acc.2.isEmpty then acc
  else
    let route := nearest_neighbor d depot acc.2 kv.2
    if route.stops.isEmpty then acc
    else (acc.1 ++ [route], removeStops route.stops acc.2)

/-- `DeliveryRouter.create_plan`: sort shipments by time window then by
descending weight, sort vehicles by descending capacity, build one route
per vehicle against the shrinking pool, and return the leftovers as
`unassigned`. -/
def create_plan (d : Location → Location → ℚ) (depot : Location)
    (vehicles : List (String × Vehicle)) (shipments : List Shipment)
    (target_date : ℤ) : RoutePlan :=
  let sorted_shipments := shipments.mergeSort shipLE
  let p := (vehicles.mergeSort vehLE).foldl (planStep d depot)
    ([], sorted_shipments)
  { date := target_date, routes := p.1, unassigned := p.2 }

end Routing

namespace Sched

/-- Python dataclass `Order`.  The due date is modelled as an abstract
integer timestamp (used only for sorting). -/
structure Order where
  order_id : String
  product_code : String
  width_mm : ℤ
  quantity_rolls : ℤ
  due_date : ℤ
  color : String := "CLEAR"
  priority : ℤ := 1
deriving DecidableEq

/-- Python dataclass `Machine`. -/
structure Machine where
  machine_id : String
  name : String
  width_min : ℤ
  width_max : ℤ
  speed_m_per_min : ℚ := 30
  max_items_per_cycle : ℕ := 4
  available : Bool := true
  current_setup : Option String := none
deriving DecidableEq

/-- Python dataclass `ScheduleSlot`.  Times are rational hours since
midnight of the target date. -/
structure ScheduleSlot where
  machine_id : String
  orders : List Order
  start_time : ℚ
  end_time : ℚ
  setup_time_min : ℚ := 0
deriving DecidableEq

/-- Python dataclass `Schedule` (without the target date, which the
scheduling logic never reads after storing it; see `create_schedule`). -/
structure Schedule where
  date : ℤ
  slots : List ScheduleSlot := []
  unscheduled_orders : List Order := []
deriving DecidableEq

/-- The module-level `MACHINES` default list. -/
def MACHINES : List Machine :=
  [⟨"M1", "1호기", 400, 600, 30, 4, true, none⟩,
   ⟨"M2", "2호기", 500, 800, 30, 4, true, none⟩,
   ⟨"M3", "3호기", 700, 1200, 30, 4, true, none⟩]

/-- The module-level `SETUP_TIME_MATRIX` dict (minutes). -/
def SETUP_TIME_MATRIX (fc tc : String) : Option ℚ :=
  if fc = "CLEAR" ∧ tc = "CLEAR" then some 10
  else if fc = "CLEAR" ∧ tc = "COLOR" then some 30
  else if fc = "COLOR" ∧ tc = "CLEAR" then some 45
  else if fc = "COLOR" ∧ tc = "COLOR" then some 20
  else none

/-- The module-level `WORK_START_HOUR` constant. -/
def WORK_START_HOUR : ℚ := 8

/-- The module-level `WORK_END_HOUR` constant. -/
def WORK_END_HOUR : ℚ := 20

/-- `ProductionScheduler.calculate_setup_time`:
`SETUP_TIME_MATRIX.get((from_color, to_color), 30)`. -/
def calculate_setup_time (from_color to_color : String) : ℚ :=
  (SETUP_TIME_MATRIX from_color to_color).getD 30

/-- `ProductionScheduler.estimate_production_time` (hours):
one roll is 1000 m, so hours = quantity * 1000 / speed / 60. -/
def estimate_production_time (order : Order) (machine : Machine) : ℚ :=
  let meters_per_roll : ℚ := 1000
  let total_meters := (order.quantity_rolls : ℚ) * meters_per_roll
  let minutes := total_meters / machine.speed_m_per_min
  minutes / 60

/-- `ProductionScheduler.get_compatible_machines`: available machines
whose inclusive width range contains the order's width. -/
def get_compatible_machines (machines : List Machine) (order : Order) :
    List Machine :=
  machines.filter fun m =>
    m.available && decide (m.width_min ≤ order.width_mm) &&
      decide (order.width_mm ≤ m.width_max)

/-- The ordering relation induced by `sort_orders_for_scheduling`'s key
`(-priority, due_date, 0 if color == "CLEAR" else 1)`, compared
lexicographically. -/
def colorRank (o : Order) : ℤ := if o.color = "CLEAR" then 0 else 1

/-- Lexicographic sort key comparison for order scheduling. -/
def orderLE (a b : Order) : Bool :=
  decide (-a.priority < -b.priority) ||
    (decide (a.priority = b.priority) &&
      (decide (a.due_date < b.due_date) ||
        (decide (a.due_date = b.due_date) &&
          decide (colorRank a ≤ colorRank b))))

/-- `ProductionScheduler.sort_orders_for_scheduling`: Python's stable
`sorted` under `orderLE`, modelled by a stable merge sort. -/
def sort_orders_for_scheduling (orders : List Order) : List Order :=
  orders.mergeSort orderLE

/-- The per-machine cursor tracked in `create_schedule`'s
`machine_states` dict: current time (hours since midnight), current
color, and the ids of orders assigned today. -/
structure MState where
  current_time : ℚ
  current_color : String
  orders_today : List String
deriving DecidableEq

/-- Initial cursor for one machine: work start, the machine's carried
setup color (Python `m.current_setup or "CLEAR"`, where both `None` and
the empty string are falsy), no orders. -/
def initMState (m : Machine) : MState :=
  { current_time := WORK_START_HOUR,
    current_color :=
      match m.current_setup with
      | none => "CLEAR"
      | some s => if s = "" then "CLEAR" else s,
    orders_today := [] }

/-- The `machine_states` dict comprehension, as a total map from machine
id; later machines overwrite earlier ones on duplicate ids, as in a
Python dict comprehension. -/
def init_machine_states (machines : List Machine) : String → MState :=
  machines.foldl
    (fun f m => fun id => if id = m.machine_id then initMState m else f id)
    (fun _ => { current_time := WORK_START_HOUR, current_color := "CLEAR",
                orders_today := [] })

/-- One iteration of the machine-selection loop of `create_schedule`:
skip a machine at its per-cycle item limit, otherwise keep it when its
setup time is strictly smaller than the best so far (Python starts from
`best_setup_time = inf`, so the first non-skipped machine always wins
the first comparison). -/
def selStep (states : String → MState) (order_color : String)
    (best : Option (Machine × ℚ)) (m : Machine) : Option (Machine × ℚ) :=
  let setup := calculate_setup_time (states m.machine_id).current_color
    order_color
  if (states m.machine_id).orders_today.length ≥ m.max_items_per_cycle then
    best
  else
    match best with
    | none => some (m, setup)
    | some bs => if setup < bs.2 then some (m, setup) else best

/-- The machine-selection loop of `create_schedule`. -/
def selectBest (states : String → MState) (order_color : String)
    (machines : List Machine) : Option (Machine × ℚ) :=
  machines.foldl (selStep states order_color) none

/-- The setup time a machine would incur for an order color, given the
per-machine cursors: the selection key of the machine-selection loop. -/
def setupKey (states : String → MState) (order_color : String)
    (m : Machine) : ℚ :=
  calculate_setup_time (states m.machine_id).current_color order_color

/-- The non-skip condition of the machine-selection loop: the machine's
assigned-order count is still below its per-cycle item limit. -/
def belowLimit (states : String → MState) (m : Machine) : Bool :=
  decide ((states m.machine_id).orders_today.length < m.max_items_per_cycle)

/-- The scheduler's working state: committed slots, unscheduled orders,
and the per-machine cursors. -/
structure SState where
  slots : List ScheduleSlot
  unscheduled_orders : List Order
  states : String → MState

/-- The body of `create_schedule`'s `for order in sorted_orders` loop. -/
def processOrder (work_end : ℚ) (machines : List Machine) (st : SState)
    (order : Order) : SState :=
  let compatible := get_compatible_machines machines order
  if compatible.isEmpty then
    { st with unscheduled_orders := st.unscheduled_orders ++ [order] }
  else
    match selectBest st.states order.color compatible with
    | none => { st with unscheduled_orders := st.unscheduled_orders ++ [order] }
    | some bm =>
      let ms := st.states bm.1.machine_id
      let production_time := estimate_production_time order bm.1
      let start_time := ms.current_time + bm.2 / 60
      let end_time := start_time + production_time
      if work_end < end_time then
        { st with unscheduled_orders := st.unscheduled_orders ++ [order] }
      else
        { slots := st.slots ++
            [⟨bm.1.machine_id, [order], start_time, end_time, bm.2⟩],
          unscheduled_orders := st.unscheduled_orders,
          states := fun id =>
            if id = bm.1.machine_id then
              ⟨end_time, order.color, ms.orders_today ++ [order.order_id]⟩
            else st.states id }

/-- `ProductionScheduler.create_schedule`: initialize one cursor per
machine, process the orders in scheduling order, and return the
committed slots and the unscheduled leftovers. -/
def create_schedule (machines : List Machine) (orders : List Order)
    (target_date : ℤ) : Schedule :=
  let final := (sort_orders_for_scheduling orders).foldl
    (processOrder WORK_END_HOUR machines)
    { slots := [], unscheduled_orders := [],
      states := init_machine_states machines }
  { date := target_date, slots := final.slots,
    unscheduled_orders := final.unscheduled_orders }

/-- The `unscheduled` block of `format_schedule_json`: every unscheduled
order is reported with the fixed reason tag `capacity_exceeded`. -/
def unscheduledJson (schedule : Schedule) : List (String × String) :=
  schedule.unscheduled_orders.map fun o => (o.order_id, "capacity_exceeded")

/-- The slots committed to one machine, in assignment order. -/
def slotsOn (id : String) (slots : List ScheduleSlot) : List ScheduleSlot :=
  slots.filter fun sl => decide (sl.machine_id = id)

/-- Invariant of the scheduling fold: every committed slot ends by the
work-day end, each machine's slot sequence is chained
(`end ≤ next start`), and each machine's last slot ends no later than
that machine's cursor. -/
def ChainInv (work_end : ℚ) (st : SState) : Prop :=
  (∀ sl ∈ st.slots, sl.end_time ≤ work_end) ∧
  ∀ id : String,
    List.Chain' (fun a b => a.end_time ≤ b.start_time)
      (slotsOn id st.slots) ∧
    ∀ lastSlot ∈ (slotsOn id st.slots).getLast?,
      lastSlot.end_time ≤ (st.states id).current_time

end Sched

/-! Concrete fixtures used by counterexamples and witnesses. -/

/-- A constant distance function: this is exactly what
`Location.distance_to` computes between coordinate-less locations. -/
def d10 : Routing.Location → Routing.Location → ℚ := fun _ _ => 10

/-- A coordinate-less depot. -/
def depotX : Routing.Location := ⟨"depot", "d", 0, 0⟩

/-- A small shipment fixture. -/
def shipX : Routing.Shipment := ⟨"S1", "c", "a", 100, 1, "ANY", 0, 0⟩

/-- A custom vehicle whose id `X1` is not a key of the default
`VEHICLES` table. -/
def vehX : Routing.Vehicle := ⟨"X1", "X", 5000, 10, 100, 1000, 500, true⟩

/-- The route the nearest-neighbor builder produces for the custom
vehicle `vehX` and the single shipment `shipX`. -/
def routeX : Routing.Route := Routing.nearest_neighbor d10 depotX [shipX] vehX

/-- A vehicle with negative capacities. -/
def vehNeg : Routing.Vehicle := ⟨"VN", "n", -1, -1, 200, 15000, 50000, true⟩

/-- The default vehicle stored under key `V1`. -/
def vehV1 : Routing.Vehicle := ⟨"V1", "5톤_1", 5000, 10, 200, 15000, 50000, true⟩

/-- A fresh route referencing the default vehicle `V1`. -/
def routeV1 : Routing.Route := { vehicle_id := "V1" }

/-- A route with nonzero totals whose vehicle id `X9` is not a key of
the default `VEHICLES` table. -/
def routeY : Routing.Route :=
  { vehicle_id := "X9", stops := [shipX], total_distance_km := 100,
    total_weight_kg := 100, total_pallets := 1, estimated_time_hours := 5 }

/-- An order of width 650 mm (compatible only with machine `M2` of the
default fleet), one roll, clear color. -/
def ord650 (id : String) : Sched.Order :=
  ⟨id, "PE-FILM-650", 650, 1, 0, "CLEAR", 1⟩

/-- Five identical-key width-650 orders: the first four fill machine
`M2` to its per-cycle item limit, the fifth must become unscheduled. -/
def scenOrders : List Sched.Order :=
  [ord650 "ORD-1", ord650 "ORD-2", ord650 "ORD-3", ord650 "ORD-4",
   ord650 "ORD-5"]

/-- An order whose production time (10000 rolls) vastly exceeds the work
window although width-compatible machines below their item limits
exist. -/
def bigOrder : Sched.Order := ⟨"ORD-BIG", "PE-FILM-500", 500, 10000, 0, "CLEAR", 1⟩

/-- An order of width 2000 mm, wider than every default machine's range:
it is unscheduled because no machine is width-compatible. -/
def orderWide : Sched.Order :=
  ⟨"ORD-WIDE", "PE-FILM-2000", 2000, 1, 0, "CLEAR", 1⟩

/-! Unfolding lemmas for the geometry, and generic facts about the
Python `min(..., key=...)` fold. -/

namespace Routing

/-- Unfolded form of `Location.distance_to`. -/
theorem distance_to_def (p q : Location) :
    p.distance_to q =
      if p.lat = 0 ∨ q.lat = 0 then 10
      else 6371 * (2 * Real.arcsin (Real.sqrt
        (Real.sin ((radians q.lat - radians p.lat) / 2) ^ 2 +
          Real.cos (radians p.lat) * Real.cos (radians q.lat) *
            Real.sin ((radians q.lon - radians p.lon) / 2) ^ 2))) := rfl

/-- Unfolded form of `haversineSpec`. -/
theorem haversineSpec_def (p q : Location) :
    haversineSpec p q =
      6371 * (2 * Real.arcsin (Real.sqrt
        (Real.sin ((radians q.lat - radians p.lat) / 2) ^ 2 +
          Real.cos (radians p.lat) * Real.cos (radians q.lat) *
            Real.sin ((radians q.lon - radians p.lon) / 2) ^ 2))) := rfl

/-- The haversine expression vanishes on equal endpoints. -/
theorem haversineSpec_self (p : Location) : haversineSpec p p = 0 := by
  rw [haversineSpec_def]
  simp

/-- `minBy` unfolds one step of the fold. -/
theorem minBy_cons {α : Type} (key : α → ℚ) (x y : α) (ys : List α) :
    minBy key x (y :: ys) = minBy key (if key y < key x then y else x) ys := rfl

/-- The element `min` selects is in the list. -/
theorem minBy_mem {α : Type} (key : α → ℚ) :
    ∀ (xs : List α) (x : α), minBy key x xs ∈ x :: xs := by
  intro xs
  induction xs with
  | nil => intro x; simp [minBy]
  | cons y ys ih =>
    intro x
    rw [minBy_cons]
    by_cases hk : key y < key x
    · rw [if_pos hk]
      rcases List.mem_cons.mp (ih y) with h | h
      · rw [h]; exact List.mem_cons_of_mem _ (List.mem_cons_self _ _)
      · exact List.mem_cons_of_mem _ (List.mem_cons_of_mem _ h)
    · rw [if_neg hk]
      rcases List.mem_cons.mp (ih x) with h | h
      · rw [h]; exact List.mem_cons_self _ _
      · exact List.mem_cons_of_mem _ (List.mem_cons_of_mem _ h)

/-- The element `min` selects has a minimal key. -/
theorem minBy_le {α : Type} (key : α → ℚ) :
    ∀ (xs : List α) (x : α) (y : α), y ∈ x :: xs →
      key (minBy key x xs) ≤ key y := by
  intro xs
  induction xs with
  | nil =>
    intro x y hy
    rcases List.mem_cons.mp hy with h | h
    · rw [h]; exact le_refl _
    · exact absurd h (List.not_mem_nil _)
  | cons z zs ih =>
    intro x y hy
    rw [minBy_cons]
    have hx' : key (if key z < key x then z else x) ≤ key x ∧
        key (if key z < key x then z else x) ≤ key z := by
      by_cases hk : key z < key x
      · rw [if_pos hk]; exact ⟨le_of_lt hk, le_refl _⟩
      · rw [if_neg hk]; exact ⟨le_refl _, le_of_not_lt hk⟩
    have hhead : key (minBy key (if key z < key x then z else x) zs) ≤
        key (if key z < key x then z else x) :=
      ih _ _ (List.mem_cons_self _ _)
    rcases List.mem_cons.mp hy with h | h
    · rw [h]; exact le_trans hhead hx'.1
    · rcases List.mem_cons.mp h with h2 | h2
      · rw [h2]; exact le_trans hhead hx'.2
      · exact ih _ _ (List.mem_cons_of_mem _ h2)

/-- The element `min` selects is the first one attaining the minimum:
every earlier element has a strictly larger key (Python's `min` replaces
the running best only on a strict `<`). -/
theorem minBy_first {α : Type} (key : α → ℚ) :
    ∀ (xs : List α) (x : α), ∃ l₁ l₂,
      x :: xs = l₁ ++ minBy key x xs :: l₂ ∧
      ∀ y ∈ l₁, key (minBy key x xs) < key y := by
  intro xs
  induction xs with
  | nil =>
    intro x
    exact ⟨[], [], by simp [minBy], by intro y hy; exact absurd hy (List.not_mem_nil _)⟩
  | cons z zs ih =>
    intro x
    rw [minBy_cons]
    by_cases hk : key z < key x
    · rw [if_pos hk]
      obtain ⟨l₁, l₂, hsplit, hlt⟩ := ih z
      refine ⟨x :: l₁, l₂, ?_, ?_⟩
      · rw [List.cons_append, ← hsplit]
      · intro y hy
        rcases List.mem_cons.mp hy with h | h
        · rw [h]
          exact lt_of_le_of_lt (minBy_le key zs z z (List.mem_cons_self _ _)) hk
        · exact hlt y h
    · rw [if_neg hk]
      obtain ⟨l₁, l₂, hsplit, hlt⟩ := ih x
      cases l₁ with
      | nil =>
        simp only [List.nil_append] at hsplit
        have hx : minBy key x zs = x :=
          ((List.cons.injEq _ _ _ _).mp hsplit).1.symm
        refine ⟨[], z :: zs, ?_, ?_⟩
        · rw [List.nil_append, hx]
        · intro y hy; exact absurd hy (List.not_mem_nil _)
      | cons a t =>
        have ha : a = x ∧ zs = t ++ minBy key x zs :: l₂ := by
          rw [List.cons_append] at hsplit
          exact ⟨(List.cons.injEq _ _ _ _ |>.mp hsplit).1.symm,
            (List.cons.injEq _ _ _ _ |>.mp hsplit).2⟩
        have hxl : key (minBy key x zs) < key x := by
          apply hlt
          rw [ha.1]; exact List.mem_cons_self _ _
        refine ⟨x :: z :: t, l₂, ?_, ?_⟩
        · conv_lhs => rw [ha.2]
          simp [List.cons_append]
        · intro y hy
          rcases List.mem_cons.mp hy with h | h
          · rw [h]; exact hxl
          · rcases List.mem_cons.mp h with h2 | h2
            · rw [h2]; exact lt_of_lt_of_le hxl (le_of_not_lt hk)
            · apply hlt
              rw [ha.1]; exact List.mem_cons_of_mem _ h2

/-- Symmetry of `Location.distance_to`: the fallback test and the
haversine expression are both symmetric in the two endpoints. -/
theorem distance_to_comm (p q : Location) :
    p.distance_to q = q.distance_to p := by
  rw [distance_to_def, distance_to_def]
  by_cases h : p.lat = 0 ∨ q.lat = 0
  · rw [if_pos h, if_pos h.symm]
  · rw [if_neg h, if_neg fun hc => h hc.symm]
    have hsin : ∀ x : ℝ, Real.sin (-x) ^ 2 = Real.sin x ^ 2 := by
      intro x; rw [Real.sin_neg]; ring
    have harg : Real.sin ((radians p.lat - radians q.lat) / 2) ^ 2 +
        Real.cos (radians q.lat) * Real.cos (radians p.lat) *
          Real.sin ((radians p.lon - radians q.lon) / 2) ^ 2 =
        Real.sin ((radians q.lat - radians p.lat) / 2) ^ 2 +
        Real.cos (radians p.lat) * Real.cos (radians q.lat) *
          Real.sin ((radians q.lon - radians p.lon) / 2) ^ 2 := by
      rw [show (radians p.lat - radians q.lat) / 2 =
          -((radians q.lat - radians p.lat) / 2) by ring,
        show (radians p.lon - radians q.lon) / 2 =
          -((radians q.lon - radians p.lon) / 2) by ring,
        hsin, hsin]
      ring
    rw [harg]

/-- Self-distance vanishes whenever the fallback branch is not taken. -/
theorem distance_to_self (p : Location) (h : p.lat ≠ 0) :
    p.distance_to p = 0 := by
  rw [distance_to_def, if_neg (by simp [h])]
  simp

end Routing

/-! Claim theorems on the geospatial cost model (C3, C9). -/

/-- C3 counterexample: the location (lat 0, lon 50) is not the sentinel
"unset" value (its longitude is nonzero), so the frozen claim predicts
the haversine distance — which is 0 between a point and itself — yet
`distance_to` tests only the latitude and returns the fallback 10.0. -/
theorem C3_geospatial_counterexample :
    ¬ Routing.sentinel ⟨"P", "Q", 0, 50⟩ ∧
    Routing.Location.distance_to ⟨"P", "Q", 0, 50⟩ ⟨"P", "Q", 0, 50⟩ = 10 ∧
    Routing.haversineSpec ⟨"P", "Q", 0, 50⟩ ⟨"P", "Q", 0, 50⟩ = 0 ∧
    (10 : ℝ) ≠ 0 := by
  refine ⟨?_, ?_, Routing.haversineSpec_self _, by norm_num⟩
  · simp [Routing.sentinel]
  · rw [Routing.distance_to_def, if_pos (Or.inl rfl)]

/-- C3 amended: if either endpoint's latitude is zero, `distance_to`
returns the fixed fallback 10.0; otherwise it returns the great-circle
(haversine) distance with earth radius 6371 km computed from the
latitudes/longitudes converted from degrees to radians. -/
theorem C3_geospatial_amended (p q : Routing.Location) :
    (p.lat = 0 ∨ q.lat = 0 → p.distance_to q = 10) ∧
    (p.lat ≠ 0 → q.lat ≠ 0 → p.distance_to q = Routing.haversineSpec p q) := by
  constructor
  · intro h; rw [Routing.distance_to_def, if_pos h]
  · intro h1 h2
    rw [Routing.distance_to_def, Routing.haversineSpec_def,
      if_neg (by simp [h1, h2])]

/-- C3 witness: both branches of the amended claim at concrete
locations. -/
theorem C3_geospatial_witness :
    Routing.Location.distance_to ⟨"A", "a", 0, 0⟩ Routing.DEPOT = 10 ∧
    Routing.Location.distance_to Routing.DEPOT ⟨"B", "b", 37.5, 127.05⟩ =
      Routing.haversineSpec Routing.DEPOT ⟨"B", "b", 37.5, 127.05⟩ :=
  ⟨(C3_geospatial_amended _ _).1 (Or.inl rfl),
   (C3_geospatial_amended _ _).2 (by norm_num [Routing.DEPOT]) (by norm_num)⟩

/-- C9 counterexample: for a location with unset coordinates the code
returns the fallback 10.0 even from the location to itself, so the
frozen claim's `distance(A,A) = 0` fails. -/
theorem C9_distance_counterexample :
    Routing.Location.distance_to ⟨"D", "E", 0, 0⟩ ⟨"D", "E", 0, 0⟩ ≠ 0 := by
  rw [Routing.distance_to_def, if_pos (Or.inl rfl)]
  norm_num

/-- C9 amended: distance is symmetric for every pair of locations, and
`distance(A,A) = 0` holds for every location whose latitude is nonzero
(so that the fallback branch is not taken). -/
theorem C9_distance_algebra :
    (∀ p q : Routing.Location, p.distance_to q = q.distance_to p) ∧
    (∀ p : Routing.Location, p.lat ≠ 0 → p.distance_to p = 0) :=
  ⟨Routing.distance_to_comm, Routing.distance_to_self⟩

/-- C9 witness: the self-distance clause applied at the depot. -/
theorem C9_distance_algebra_witness :
    Routing.Location.distance_to Routing.DEPOT Routing.DEPOT = 0 :=
  C9_distance_algebra.2 Routing.DEPOT (by norm_num [Routing.DEPOT])

/-! Claim theorems on the routing cost model (C4, C10). -/

/-- Evaluation of the fixture route `routeX`: one stop, two constant
10 km legs, 100 kg, one pallet, 20 / 40 + 15 / 60 hours. -/
theorem routeX_eval :
    routeX = { vehicle_id := "X1", stops := [shipX], total_distance_km := 20,
               total_weight_kg := 100, total_pallets := 1,
               estimated_time_hours := 3 / 4 } := by
  norm_num [routeX, Routing.nearest_neighbor, Routing.nnLoop, Routing.minBy,
    Routing.feasibleFor, Routing.Shipment.location, Routing.AVERAGE_SPEED,
    Routing.UNLOAD_TIME_MIN, d10, depotX, shipX, vehX]

/-- C4 counterexample: a route built by the router for the
constructor-supplied custom vehicle `vehX` (id `X1`, not a default key)
has cost 0.0, not the claimed formula over that vehicle's parameters. -/
theorem C4_cost_counterexample :
    routeX.stops ≠ [] ∧
    Routing.Route.cost routeX ≠
      routeX.total_distance_km * vehX.cost_per_km +
        routeX.estimated_time_hours * vehX.hourly_rate + vehX.fixed_cost := by
  rw [routeX_eval]
  constructor
  · simp
  · have hc : Routing.Route.cost
        { vehicle_id := "X1", stops := [shipX], total_distance_km := 20,
          total_weight_kg := 100, total_pallets := 1,
          estimated_time_hours := 3 / 4 } = 0 := rfl
    rw [hc]
    norm_num [vehX]

/-- C4 amended: the route's cost equals distance times `cost_per_km`
plus time times `hourly_rate` plus the fixed cost when the route has at
least one stop — for the vehicle resolved from the module-level default
`VEHICLES` table at the route's `vehicle_id` (not the vehicle supplied to
the router's constructor), and it is a pure function of the route's
totals and that table entry's static parameters. -/
theorem C4_cost_amended (r : Routing.Route) (v : Routing.Vehicle)
    (h : Routing.dict_get Routing.VEHICLES r.vehicle_id = some v) :
    Routing.Route.cost r =
      r.total_distance_km * v.cost_per_km +
        r.estimated_time_hours * v.hourly_rate +
        (if r.stops = [] then 0 else v.fixed_cost) := by
  simp [Routing.Route.cost, h, List.isEmpty_iff]

/-- C4 witness: the amended cost formula at the default vehicle `V1`. -/
theorem C4_cost_witness :
    Routing.dict_get Routing.VEHICLES "V1" = some vehV1 ∧
    Routing.Route.cost routeV1 =
      routeV1.total_distance_km * vehV1.cost_per_km +
        routeV1.estimated_time_hours * vehV1.hourly_rate +
        (if routeV1.stops = [] then 0 else vehV1.fixed_cost) :=
  ⟨by simp [Routing.dict_get, Routing.VEHICLES, vehV1],
   C4_cost_amended routeV1 vehV1
     (by simp [Routing.dict_get, Routing.VEHICLES, vehV1, routeV1])⟩

/-- C10: `Route.cost` resolves the vehicle from the module-level default
`VEHICLES` table by the route's `vehicle_id`; when the id is not a key of
that table the cost is 0.0 regardless of the route's distance, time and
stops, and when it is a key the cost is computed from that table entry's
parameters (never from a constructor-supplied fleet). -/
theorem C10_cost_default_table :
    (∀ r : Routing.Route,
      Routing.dict_get Routing.VEHICLES r.vehicle_id = none →
        Routing.Route.cost r = 0) ∧
    (∀ (r : Routing.Route) (v : Routing.Vehicle),
      Routing.dict_get Routing.VEHICLES r.vehicle_id = some v →
        Routing.Route.cost r =
          r.total_distance_km * v.cost_per_km +
            r.estimated_time_hours * v.hourly_rate +
            (if r.stops = [] then 0 else v.fixed_cost)) := by
  constructor
  · intro r h; simp [Routing.Route.cost, h]
  · intro r v h; simp [Routing.Route.cost, h, List.isEmpty_iff]

/-- C10 witness: a route with nonzero distance, time and stops whose id
`X9` is not a default key has cost 0. -/
theorem C10_cost_default_table_witness :
    Routing.dict_get Routing.VEHICLES routeY.vehicle_id = none ∧
    Routing.Route.cost routeY = 0 :=
  ⟨by simp [Routing.dict_get, Routing.VEHICLES, routeY],
   C10_cost_default_table.1 routeY
     (by simp [Routing.dict_get, Routing.VEHICLES, routeY])⟩

/-! Claim theorems on the capacity invariant (C2). -/

/-- The greedy loop preserves the capacity bounds: every appended stop
passes the feasibility filter, which checks exactly that the new totals
stay within the vehicle's capacities. -/
theorem nnLoop_capacity (d : Routing.Location → Routing.Location → ℚ)
    (v : Routing.Vehicle) :
    ∀ (fuel : ℕ) (remaining : List Routing.Shipment) (cur : Routing.Location)
      (route : Routing.Route),
      route.total_weight_kg ≤ v.capacity_kg →
      route.total_pallets ≤ v.capacity_pallets →
      (Routing.nnLoop d v fuel remaining cur route).1.total_weight_kg ≤
        v.capacity_kg ∧
      (Routing.nnLoop d v fuel remaining cur route).1.total_pallets ≤
        v.capacity_pallets := by
  intro fuel
  induction fuel with
  | zero =>
    intro remaining cur route hw hp
    simp only [Routing.nnLoop]
    exact ⟨hw, hp⟩
  | succ n ih =>
    intro remaining cur route hw hp
    simp only [Routing.nnLoop]
    by_cases he : remaining.isEmpty
    · rw [if_pos he]; exact ⟨hw, hp⟩
    · rw [if_neg he]
      cases hf : remaining.filter (Routing.feasibleFor route v) with
      | nil => exact ⟨hw, hp⟩
      | cons f fs =>
        have hmem : Routing.minBy (fun s => d cur s.location) f fs ∈ f :: fs :=
          Routing.minBy_mem _ fs f
        rw [← hf] at hmem
        have hfeas := (List.mem_filter.mp hmem).2
        rw [Routing.feasibleFor, Bool.and_eq_true, decide_eq_true_iff,
          decide_eq_true_iff] at hfeas
        exact ih _ _ _ hfeas.1 hfeas.2

/-- C2 counterexample: with an empty candidate pool and a vehicle whose
capacities are negative, the constructed route has totals 0, which
strictly exceed both capacities — refuting the claim as stated for
arbitrary vehicles. -/
theorem C2_capacity_counterexample :
    vehNeg.capacity_kg <
      (Routing.nearest_neighbor d10 depotX [] vehNeg).total_weight_kg ∧
    vehNeg.capacity_pallets <
      (Routing.nearest_neighbor d10 depotX [] vehNeg).total_pallets := by
  have h : Routing.nearest_neighbor d10 depotX [] vehNeg =
      { vehicle_id := "VN" } := rfl
  rw [h]
  constructor <;> norm_num [vehNeg]

/-- C2 amended: for every vehicle with nonnegative weight and pallet
capacities (and any distance function, depot and shipment pool), the
route built by the nearest-neighbor builder keeps cumulative weight at
most `capacity_kg` and cumulative pallets at most `capacity_pallets`. -/
theorem C2_capacity_amended (d : Routing.Location → Routing.Location → ℚ)
    (depot : Routing.Location) (pool : List Routing.Shipment)
    (v : Routing.Vehicle) (hw : 0 ≤ v.capacity_kg)
    (hp : 0 ≤ v.capacity_pallets) :
    (Routing.nearest_neighbor d depot pool v).total_weight_kg ≤
      v.capacity_kg ∧
    (Routing.nearest_neighbor d depot pool v).total_pallets ≤
      v.capacity_pallets := by
  have h := nnLoop_capacity d v pool.length pool depot
    { vehicle_id := v.vehicle_id } hw hp
  constructor
  · simp only [Routing.nearest_neighbor]
    split
    · exact h.1
    · exact h.1
  · simp only [Routing.nearest_neighbor]
    split
    · exact h.2
    · exact h.2

/-- C2 witness: the amended bound at a concrete vehicle and pool. -/
theorem C2_capacity_witness :
    (0 : ℚ) ≤ vehX.capacity_kg ∧ (0 : ℤ) ≤ vehX.capacity_pallets ∧
    (Routing.nearest_neighbor d10 depotX [shipX] vehX).total_weight_kg ≤
      vehX.capacity_kg ∧
    (Routing.nearest_neighbor d10 depotX [shipX] vehX).total_pallets ≤
      vehX.capacity_pallets :=
  ⟨by norm_num [vehX], by norm_num [vehX],
   (C2_capacity_amended d10 depotX [shipX] vehX (by norm_num [vehX])
     (by norm_num [vehX])).1,
   (C2_capacity_amended d10 depotX [shipX] vehX (by norm_num [vehX])
     (by norm_num [vehX])).2⟩

/-! Claim theorems on nearest-neighbor step semantics (C8). -/

namespace Routing

/-- When the loop assigned no stop, the builder returns the loop's route
unchanged. -/
theorem nearest_neighbor_empty (d : Location → Location → ℚ)
    (depot : Location) (pool : List Shipment) (v : Vehicle)
    (h : (nnLoop d v pool.length pool depot
      { vehicle_id := v.vehicle_id }).1.stops.isEmpty) :
    nearest_neighbor d depot pool v =
      (nnLoop d v pool.length pool depot { vehicle_id := v.vehicle_id }).1 := by
  simp only [nearest_neighbor, if_pos h]

/-- When the loop assigned at least one stop, the builder adds the
return-to-depot leg and derives the elapsed time. -/
theorem nearest_neighbor_finalize (d : Location → Location → ℚ)
    (depot : Location) (pool : List Shipment) (v : Vehicle)
    (h : ¬ (nnLoop d v pool.length pool depot
      { vehicle_id := v.vehicle_id }).1.stops.isEmpty = true) :
    nearest_neighbor d depot pool v =
      { (nnLoop d v pool.length pool depot { vehicle_id := v.vehicle_id }).1 with
        total_distance_km :=
          (nnLoop d v pool.length pool depot
            { vehicle_id := v.vehicle_id }).1.total_distance_km +
            d (nnLoop d v pool.length pool depot
              { vehicle_id := v.vehicle_id }).2 depot,
        estimated_time_hours :=
          ((nnLoop d v pool.length pool depot
            { vehicle_id := v.vehicle_id }).1.total_distance_km +
            d (nnLoop d v pool.length pool depot
              { vehicle_id := v.vehicle_id }).2 depot) / AVERAGE_SPEED +
            ((nnLoop d v pool.length pool depot
              { vehicle_id := v.vehicle_id }).1.stops.length : ℚ) *
              UNLOAD_TIME_MIN / 60 } := by
  simp only [nearest_neighbor, if_neg h]

end Routing

/-- C8: (i) at each step, among the feasible candidates the one with the
minimum distance from the current position is selected — it belongs to
the feasible list, its distance is minimal, and every earlier feasible
candidate is strictly farther (the strict `<` comparison makes the first
minimum win ties); (ii) one loop step recurses exactly on that selected
stop, appending it and accumulating its distance; (iii) a finished route
with at least one stop carries the return-to-depot distance and elapsed
time `total_distance_km / 40 + stop_count * 15 / 60` hours. -/
theorem C8_nearest_neighbor_step :
    (∀ (d : Routing.Location → Routing.Location → ℚ) (cur : Routing.Location)
       (f : Routing.Shipment) (fs : List Routing.Shipment),
       Routing.minBy (fun s => d cur s.location) f fs ∈ f :: fs ∧
       (∀ y ∈ f :: fs,
         d cur (Routing.minBy (fun s => d cur s.location) f fs).location ≤
           d cur y.location) ∧
       (∃ l₁ l₂,
         f :: fs = l₁ ++ Routing.minBy (fun s => d cur s.location) f fs :: l₂ ∧
         ∀ y ∈ l₁,
           d cur (Routing.minBy (fun s => d cur s.location) f fs).location <
             d cur y.location)) ∧
    (∀ (d : Routing.Location → Routing.Location → ℚ) (v : Routing.Vehicle)
       (fuel : ℕ) (remaining : List Routing.Shipment) (cur : Routing.Location)
       (route : Routing.Route) (f : Routing.Shipment)
       (fs : List Routing.Shipment),
       remaining.isEmpty = false →
       remaining.filter (Routing.feasibleFor route v) = f :: fs →
       Routing.nnLoop d v (fuel + 1) remaining cur route =
         Routing.nnLoop d v fuel
           (remaining.erase (Routing.minBy (fun s => d cur s.location) f fs))
           (Routing.minBy (fun s => d cur s.location) f fs).location
           { route with
             stops := route.stops ++
               [Routing.minBy (fun s => d cur s.location) f fs],
             total_weight_kg := route.total_weight_kg +
               (Routing.minBy (fun s => d cur s.location) f fs).weight_kg,
             total_pallets := route.total_pallets +
               (Routing.minBy (fun s => d cur s.location) f fs).pallets,
             total_distance_km := route.total_distance_km +
               d cur (Routing.minBy (fun s => d cur s.location) f fs).location }) ∧
    (∀ (d : Routing.Location → Routing.Location → ℚ) (depot : Routing.Location)
       (pool : List Routing.Shipment) (v : Routing.Vehicle),
       (Routing.nearest_neighbor d depot pool v).stops ≠ [] →
       (Routing.nearest_neighbor d depot pool v).total_distance_km =
         (Routing.nnLoop d v pool.length pool depot
           { vehicle_id := v.vehicle_id }).1.total_distance_km +
           d (Routing.nnLoop d v pool.length pool depot
             { vehicle_id := v.vehicle_id }).2 depot ∧
       (Routing.nearest_neighbor d depot pool v).estimated_time_hours =
         (Routing.nearest_neighbor d depot pool v).total_distance_km / 40 +
           ((Routing.nearest_neighbor d depot pool v).stops.length : ℚ) *
             15 / 60) := by
  refine ⟨?_, ?_, ?_⟩
  · intro d cur f fs
    exact ⟨Routing.minBy_mem _ fs f,
      fun y hy => Routing.minBy_le (fun s => d cur s.location) fs f y hy,
      Routing.minBy_first _ fs f⟩
  · intro d v fuel remaining cur route f fs he hf
    simp only [Routing.nnLoop, he, Bool.false_eq_true, if_false, hf]
  · intro d depot pool v hne
    by_cases hs : (Routing.nnLoop d v pool.length pool depot
      { vehicle_id := v.vehicle_id }).1.stops.isEmpty
    · rw [Routing.nearest_neighbor_empty d depot pool v hs] at hne
      exact absurd (List.isEmpty_iff.mp hs) hne
    · rw [Routing.nearest_neighbor_finalize d depot pool v hs]
      exact ⟨rfl, rfl⟩

/-- C8 witness: the loop-step clause and the finalization clause at
concrete inputs. -/
theorem C8_nearest_neighbor_step_witness :
    ([shipX].isEmpty = false ∧
      [shipX].filter (Routing.feasibleFor { vehicle_id := "X1" } vehX) =
        shipX :: [] ∧
      Routing.nnLoop d10 vehX 1 [shipX] depotX { vehicle_id := "X1" } =
        Routing.nnLoop d10 vehX 0
          ([shipX].erase (Routing.minBy (fun s => d10 depotX s.location)
            shipX []))
          (Routing.minBy (fun s => d10 depotX s.location) shipX []).location
          { ({ vehicle_id := "X1" } : Routing.Route) with
            stops := ({ vehicle_id := "X1" } : Routing.Route).stops ++
              [Routing.minBy (fun s => d10 depotX s.location) shipX []],
            total_weight_kg :=
              ({ vehicle_id := "X1" } : Routing.Route).total_weight_kg +
                (Routing.minBy (fun s => d10 depotX s.location)
                  shipX []).weight_kg,
            total_pallets :=
              ({ vehicle_id := "X1" } : Routing.Route).total_pallets +
                (Routing.minBy (fun s => d10 depotX s.location)
                  shipX []).pallets,
            total_distance_km :=
              ({ vehicle_id := "X1" } : Routing.Route).total_distance_km +
                d10 depotX (Routing.minBy (fun s => d10 depotX s.location)
                  shipX []).location }) ∧
    ((Routing.nearest_neighbor d10 depotX [shipX] vehX).stops ≠ [] ∧
      (Routing.nearest_neighbor d10 depotX [shipX] vehX).estimated_time_hours =
        (Routing.nearest_neighbor d10 depotX [shipX] vehX).total_distance_km /
            40 +
          ((Routing.nearest_neighbor d10 depotX [shipX] vehX).stops.length :
            ℚ) * 15 / 60) := by
  have he : ([shipX] : List Routing.Shipment).isEmpty = false := rfl
  have hf : [shipX].filter (Routing.feasibleFor { vehicle_id := "X1" } vehX) =
      shipX :: [] := by
    norm_num [Routing.feasibleFor, shipX, vehX, List.filter]
  have hne : (Routing.nearest_neighbor d10 depotX [shipX] vehX).stops ≠ [] := by
    have hr : Routing.nearest_neighbor d10 depotX [shipX] vehX = routeX := rfl
    rw [hr, routeX_eval]
    simp
  exact ⟨⟨he, hf, C8_nearest_neighbor_step.2.1 d10 vehX 0 [shipX] depotX
      { vehicle_id := "X1" } shipX [] he hf⟩,
    ⟨hne, (C8_nearest_neighbor_step.2.2 d10 depotX [shipX] vehX hne).2⟩⟩

/-! Claim theorems on the coverage invariant (C1). -/

namespace Routing

/-- Zero fuel: the loop returns its accumulator. -/
theorem nnLoop_zero (d : Location → Location → ℚ) (v : Vehicle)
    (pool : List Shipment) (cur : Location) (route : Route) :
    nnLoop d v 0 pool cur route = (route, cur) := rfl

/-- Exhausted pool: the loop exits. -/
theorem nnLoop_succ_empty (d : Location → Location → ℚ) (v : Vehicle)
    (fuel : ℕ) (pool : List Shipment) (cur : Location) (route : Route)
    (he : pool.isEmpty = true) :
    nnLoop d v (fuel + 1) pool cur route = (route, cur) := by
  simp only [nnLoop, he, if_true]

/-- No feasible candidate: the loop exits. -/
theorem nnLoop_succ_nofeas (d : Location → Location → ℚ) (v : Vehicle)
    (fuel : ℕ) (pool : List Shipment) (cur : Location) (route : Route)
    (he : pool.isEmpty = false)
    (hf : pool.filter (feasibleFor route v) = []) :
    nnLoop d v (fuel + 1) pool cur route = (route, cur) := by
  simp only [nnLoop, he, Bool.false_eq_true, if_false, hf]

/-- Feasible candidates exist: the loop appends the nearest one and
recurses on the pool without it. -/
theorem nnLoop_succ_step (d : Location → Location → ℚ) (v : Vehicle)
    (fuel : ℕ) (pool : List Shipment) (cur : Location) (route : Route)
    (f : Shipment) (fs : List Shipment) (he : pool.isEmpty = false)
    (hf : pool.filter (feasibleFor route v) = f :: fs) :
    nnLoop d v (fuel + 1) pool cur route =
      nnLoop d v fuel
        (pool.erase (minBy (fun s => d cur s.location) f fs))
        (minBy (fun s => d cur s.location) f fs).location
        { route with
          stops := route.stops ++ [minBy (fun s => d cur s.location) f fs],
          total_weight_kg := route.total_weight_kg +
            (minBy (fun s => d cur s.location) f fs).weight_kg,
          total_pallets := route.total_pallets +
            (minBy (fun s => d cur s.location) f fs).pallets,
          total_distance_km := route.total_distance_km +
            d cur (minBy (fun s => d cur s.location) f fs).location } := by
  simp only [nnLoop, he, Bool.false_eq_true, if_false, hf]

/-- The stops the greedy loop appends are drawn from the candidate pool
(with multiplicity). -/
theorem nnLoop_stops (d : Location → Location → ℚ) (v : Vehicle) :
    ∀ (fuel : ℕ) (pool : List Shipment) (cur : Location) (route : Route),
      ∃ new : List Shipment,
        (nnLoop d v fuel pool cur route).1.stops = route.stops ++ new ∧
        (↑new : Multiset Shipment) ≤ ↑pool := by
  intro fuel
  induction fuel with
  | zero =>
    intro pool cur route
    exact ⟨[], by simp [nnLoop_zero], Multiset.zero_le _⟩
  | succ n ih =>
    intro pool cur route
    cases hpe : pool.isEmpty with
    | true =>
      rw [nnLoop_succ_empty d v n pool cur route hpe]
      exact ⟨[], by simp, Multiset.zero_le _⟩
    | false =>
      cases hf : pool.filter (feasibleFor route v) with
      | nil =>
        rw [nnLoop_succ_nofeas d v n pool cur route hpe hf]
        exact ⟨[], by simp, Multiset.zero_le _⟩
      | cons f fs =>
        rw [nnLoop_succ_step d v n pool cur route f fs hpe hf]
        have hmem : minBy (fun s => d cur s.location) f fs ∈ pool := by
          have h1 : minBy (fun s => d cur s.location) f fs ∈ f :: fs :=
            minBy_mem _ fs f
          rw [← hf] at h1
          exact (List.mem_filter.mp h1).1
        obtain ⟨new, hstops, hle⟩ := ih
          (pool.erase (minBy (fun s => d cur s.location) f fs))
          (minBy (fun s => d cur s.location) f fs).location
          { route with
            stops := route.stops ++ [minBy (fun s => d cur s.location) f fs],
            total_weight_kg := route.total_weight_kg +
              (minBy (fun s => d cur s.location) f fs).weight_kg,
            total_pallets := route.total_pallets +
              (minBy (fun s => d cur s.location) f fs).pallets,
            total_distance_km := route.total_distance_km +
              d cur (minBy (fun s => d cur s.location) f fs).location }
        refine ⟨minBy (fun s => d cur s.location) f fs :: new,
          hstops.trans (by simp), ?_⟩
        calc (↑(minBy (fun s => d cur s.location) f fs :: new) :
            Multiset Shipment)
            = minBy (fun s => d cur s.location) f fs ::ₘ ↑new :=
              (Multiset.cons_coe _ _).symm
          _ ≤ minBy (fun s => d cur s.location) f fs ::ₘ
              ↑(pool.erase (minBy (fun s => d cur s.location) f fs)) :=
              Multiset.cons_le_cons _ hle
          _ = ↑pool := by
              rw [← Multiset.coe_erase]
              exact Multiset.cons_erase (Multiset.mem_coe.mpr hmem)

/-- The stops of the built route are those of the loop (the finalization
step only touches distance and time). -/
theorem nearest_neighbor_stops (d : Location → Location → ℚ)
    (depot : Location) (pool : List Shipment) (v : Vehicle) :
    (nearest_neighbor d depot pool v).stops =
      (nnLoop d v pool.length pool depot
        { vehicle_id := v.vehicle_id }).1.stops := by
  simp only [nearest_neighbor]
  split
  · rfl
  · rfl

/-- One step of the removal loop. -/
theorem removeStops_cons (s : Shipment) (rest remaining : List Shipment) :
    removeStops (s :: rest) remaining =
      removeStops rest (if s ∈ remaining then remaining.erase s
        else remaining) := rfl

/-- Removing a sub-multiset of stops splits the pool exactly: the pool
is the removed stops plus the leftover, with multiplicity. -/
theorem removeStops_coverage :
    ∀ (stops remaining : List Shipment),
      (↑stops : Multiset Shipment) ≤ ↑remaining →
      (↑remaining : Multiset Shipment) =
        ↑stops + ↑(removeStops stops remaining) := by
  intro stops
  induction stops with
  | nil =>
    intro remaining _
    simp [removeStops]
  | cons s rest ih =>
    intro remaining h
    have hs : s ∈ remaining := by
      have h2 := Multiset.mem_of_le h
        (show s ∈ (↑(s :: rest) : Multiset Shipment) by simp)
      exact Multiset.mem_coe.mp h2
    rw [removeStops_cons, if_pos hs]
    have hrem : (↑remaining : Multiset Shipment) =
        s ::ₘ ↑(remaining.erase s) := by
      rw [← Multiset.coe_erase]
      exact (Multiset.cons_erase (Multiset.mem_coe.mpr hs)).symm
    have hrest : (↑rest : Multiset Shipment) ≤ ↑(remaining.erase s) := by
      have hcons : s ::ₘ (↑rest : Multiset Shipment) ≤
          s ::ₘ ↑(remaining.erase s) := by
        rw [Multiset.cons_coe, ← hrem]
        exact h
      exact (Multiset.cons_le_cons_iff s).mp hcons
    calc (↑remaining : Multiset Shipment)
        = s ::ₘ ↑(remaining.erase s) := hrem
      _ = s ::ₘ (↑rest + ↑(removeStops rest (remaining.erase s))) := by
          rw [ih (remaining.erase s) hrest]
      _ = (s ::ₘ ↑rest) + ↑(removeStops rest (remaining.erase s)) :=
          (Multiset.cons_add _ _ _).symm
      _ = ↑(s :: rest) + ↑(removeStops rest (remaining.erase s)) := by
          rw [Multiset.cons_coe]

/-- One vehicle step of `create_plan` preserves the coverage sum
(assigned stops plus remaining pool). -/
theorem planStep_coverage (d : Location → Location → ℚ) (depot : Location)
    (acc : List Route × List Shipment) (kv : String × Vehicle) :
    (↑((planStep d depot acc kv).1.flatMap Route.stops) :
        Multiset Shipment) + ↑(planStep d depot acc kv).2 =
    (↑(acc.1.flatMap Route.stops) : Multiset Shipment) + ↑acc.2 := by
  simp only [planStep]
  split
  · rfl
  · split
    · rfl
    · rename_i hskip hne
      have hsub : (↑(nearest_neighbor d depot acc.2 kv.2).stops :
          Multiset Shipment) ≤ ↑acc.2 := by
        rw [nearest_neighbor_stops]
        obtain ⟨new, hstops, hle⟩ := nnLoop_stops d kv.2 acc.2.length acc.2
          depot { vehicle_id := kv.2.vehicle_id }
        rw [hstops]
        simpa using hle
      have hcov := removeStops_coverage _ _ hsub
      rw [List.flatMap_append]
      simp only [List.flatMap_cons, List.flatMap_nil, List.append_nil]
      rw [← Multiset.coe_add, add_assoc, ← hcov]

/-- The vehicle fold of `create_plan` preserves the coverage sum. -/
theorem planFold_coverage (d : Location → Location → ℚ) (depot : Location) :
    ∀ (vs : List (String × Vehicle)) (acc : List Route × List Shipment),
      (↑((vs.foldl (planStep d depot) acc).1.flatMap Route.stops) :
        Multiset Shipment) + ↑(vs.foldl (planStep d depot) acc).2 =
      (↑(acc.1.flatMap Route.stops) : Multiset Shipment) + ↑acc.2 := by
  intro vs
  induction vs with
  | nil => intro acc; rfl
  | cons kv vs ih =>
    intro acc
    rw [List.foldl_cons, ih (planStep d depot acc kv), planStep_coverage]

end Routing

namespace Sched

/-- Each processed order lands in exactly one place: either a fresh
single-order slot is appended or the order is appended to the
unscheduled list, in both cases adding exactly one occurrence. -/
theorem processOrder_coverage (work_end : ℚ) (machines : List Machine)
    (st : SState) (o : Order) :
    (↑((processOrder work_end machines st o).slots.flatMap
        ScheduleSlot.orders) : Multiset Order) +
      ↑(processOrder work_end machines st o).unscheduled_orders =
    ((↑(st.slots.flatMap ScheduleSlot.orders) : Multiset Order) +
      ↑st.unscheduled_orders) + {o} := by
  simp only [processOrder]
  split
  · simp [← Multiset.coe_add, add_assoc]
  · split
    · simp [← Multiset.coe_add, add_assoc]
    · split
      · simp [← Multiset.coe_add, add_assoc]
      · simp [← Multiset.coe_add, List.flatMap_append, add_assoc,
          add_comm, add_left_comm]

/-- The order fold of `create_schedule` adds each processed order exactly
once to the combined slot/unscheduled collection. -/
theorem schedFold_coverage (work_end : ℚ) (machines : List Machine) :
    ∀ (os : List Order) (st : SState),
      (↑((os.foldl (processOrder work_end machines) st).slots.flatMap
          ScheduleSlot.orders) : Multiset Order) +
        ↑(os.foldl (processOrder work_end machines) st).unscheduled_orders =
      ((↑(st.slots.flatMap ScheduleSlot.orders) : Multiset Order) +
        ↑st.unscheduled_orders) + ↑os := by
  intro os
  induction os with
  | nil => intro st; simp
  | cons o os ih =>
    intro st
    rw [List.foldl_cons, ih (processOrder work_end machines st o),
      processOrder_coverage, add_assoc]
    congr 1

end Sched

/-- C1: coverage invariant.  Routing: the stops of all routes of the
plan together with the unassigned shipments are a permutation of the
input shipments (each input shipment is in exactly one route or in
`unassigned`, counting multiplicity).  Scheduling: the orders of all
slots together with the unscheduled orders are a permutation of the
input orders. -/
theorem C1_coverage :
    (∀ (d : Routing.Location → Routing.Location → ℚ)
       (depot : Routing.Location)
       (vehicles : List (String × Routing.Vehicle))
       (shipments : List Routing.Shipment) (td : ℤ),
       ((Routing.create_plan d depot vehicles shipments td).routes.flatMap
           Routing.Route.stops ++
         (Routing.create_plan d depot vehicles shipments td).unassigned).Perm
         shipments) ∧
    (∀ (machines : List Sched.Machine) (orders : List Sched.Order) (td : ℤ),
       ((Sched.create_schedule machines orders td).slots.flatMap
           Sched.ScheduleSlot.orders ++
         (Sched.create_schedule machines orders td).unscheduled_orders).Perm
         orders) := by
  constructor
  · intro d depot vehicles shipments td
    rw [← Multiset.coe_eq_coe, ← Multiset.coe_add]
    show (↑(((vehicles.mergeSort Routing.vehLE).foldl
        (Routing.planStep d depot)
        ([], shipments.mergeSort Routing.shipLE)).1.flatMap
        Routing.Route.stops) : Multiset Routing.Shipment) +
      ↑((vehicles.mergeSort Routing.vehLE).foldl (Routing.planStep d depot)
        ([], shipments.mergeSort Routing.shipLE)).2 = ↑shipments
    rw [Routing.planFold_coverage]
    simpa using List.mergeSort_perm shipments Routing.shipLE
  · intro machines orders td
    rw [← Multiset.coe_eq_coe, ← Multiset.coe_add]
    show (↑(((Sched.sort_orders_for_scheduling orders).foldl
        (Sched.processOrder Sched.WORK_END_HOUR machines)
        { slots := [], unscheduled_orders := [],
          states := Sched.init_machine_states machines }).slots.flatMap
        Sched.ScheduleSlot.orders) : Multiset Sched.Order) +
      ↑((Sched.sort_orders_for_scheduling orders).foldl
        (Sched.processOrder Sched.WORK_END_HOUR machines)
        { slots := [], unscheduled_orders := [],
          states := Sched.init_machine_states machines }).unscheduled_orders =
      ↑orders
    rw [Sched.schedFold_coverage]
    simpa [Sched.sort_orders_for_scheduling] using
      List.mergeSort_perm orders Sched.orderLE

/-! Claim theorems on per-machine slot ordering and the work window
(C6). -/

namespace Sched

/-- All setup times are nonnegative (matrix values 10/30/45/20, default
30). -/
theorem calculate_setup_time_nonneg (a b : String) :
    0 ≤ calculate_setup_time a b := by
  simp only [calculate_setup_time, SETUP_TIME_MATRIX]
  split
  · norm_num [Option.getD]
  · split
    · norm_num [Option.getD]
    · split
      · norm_num [Option.getD]
      · split
        · norm_num [Option.getD]
        · norm_num [Option.getD]

/-- One selection step keeps the best setup time nonnegative. -/
theorem selStep_nonneg (states : String → MState) (order_color : String)
    (acc : Option (Machine × ℚ)) (m : Machine)
    (h : ∀ p, acc = some p → 0 ≤ p.2) :
    ∀ q, selStep states order_color acc m = some q → 0 ≤ q.2 := by
  intro q hq
  rcases acc with _ | bs
  · simp only [selStep] at hq
    split at hq
    · exact Option.noConfusion hq
    · have h2 := (Option.some.injEq _ _).mp hq
      rw [← h2]
      exact calculate_setup_time_nonneg _ _
  · simp only [selStep] at hq
    split at hq
    · exact h q hq
    · split at hq
      · have h2 := (Option.some.injEq _ _).mp hq
        rw [← h2]
        exact calculate_setup_time_nonneg _ _
      · exact h q hq

/-- The selection fold keeps the best setup time nonnegative. -/
theorem selGo_nonneg (states : String → MState) (order_color : String) :
    ∀ (ms : List Machine) (acc : Option (Machine × ℚ)),
      (∀ p, acc = some p → 0 ≤ p.2) →
      ∀ p, ms.foldl (selStep states order_color) acc = some p → 0 ≤ p.2 := by
  intro ms
  induction ms with
  | nil => intro acc h p hp; exact h p hp
  | cons m ms ih =>
    intro acc h p hp
    rw [List.foldl_cons] at hp
    exact ih _ (selStep_nonneg states order_color acc m h) p hp

/-- The setup time the machine-selection loop returns is nonnegative. -/
theorem selectBest_nonneg (states : String → MState) (order_color : String)
    (ms : List Machine) :
    ∀ p, selectBest states order_color ms = some p → 0 ≤ p.2 :=
  selGo_nonneg states order_color ms none fun _ hp => Option.noConfusion hp

/-- Filtering distributes over append for per-machine slots. -/
theorem slotsOn_append (id : String) (l1 l2 : List ScheduleSlot) :
    slotsOn id (l1 ++ l2) = slotsOn id l1 ++ slotsOn id l2 := by
  simp [slotsOn, List.filter_append]

/-- Processing one order preserves the chain invariant. -/
theorem processOrder_chain (work_end : ℚ) (machines : List Machine)
    (st : SState) (o : Order) (h : ChainInv work_end st) :
    ChainInv work_end (processOrder work_end machines st o) := by
  simp only [processOrder]
  split
  · exact h
  · split
    · exact h
    · rename_i hcomp bm hbm
      split
      · exact h
      · rename_i hw
        constructor
        · intro sl hsl
          rcases List.mem_append.mp hsl with hin | hin
          · exact h.1 sl hin
          · rcases List.mem_singleton.mp hin with rfl
            exact le_of_not_lt hw
        · intro mid
          by_cases hid : mid = bm.1.machine_id
          · have hfilter : slotsOn mid (st.slots ++
                [⟨bm.1.machine_id, [o],
                  (st.states bm.1.machine_id).current_time + bm.2 / 60,
                  (st.states bm.1.machine_id).current_time + bm.2 / 60 +
                    estimate_production_time o bm.1, bm.2⟩]) =
                slotsOn mid st.slots ++
                [⟨bm.1.machine_id, [o],
                  (st.states bm.1.machine_id).current_time + bm.2 / 60,
                  (st.states bm.1.machine_id).current_time + bm.2 / 60 +
                    estimate_production_time o bm.1, bm.2⟩] := by
              rw [slotsOn_append]
              simp [slotsOn, hid]
            have hsetup : (0 : ℚ) ≤ bm.2 :=
              selectBest_nonneg st.states o.color _ bm hbm
            have hstart : (st.states bm.1.machine_id).current_time ≤
                (st.states bm.1.machine_id).current_time + bm.2 / 60 :=
              le_add_of_nonneg_right (by positivity)
            constructor
            · rw [hfilter]
              rw [List.chain'_append]
              refine ⟨(h.2 mid).1, List.chain'_singleton _, ?_⟩
              intro x hx y hy
              simp only [List.head?_cons, Option.mem_def,
                Option.some.injEq] at hy
              rw [← hy]
              refine le_trans ((h.2 mid).2 x hx) ?_
              rw [hid]
              exact hstart
            · intro lastSlot hl
              rw [hfilter, List.getLast?_append] at hl
              simp only [List.getLast?_singleton, Option.or_some,
                Option.mem_def, Option.some.injEq] at hl
              rw [← hl]
              simp [hid]
          · have hfilter : slotsOn mid (st.slots ++
                [⟨bm.1.machine_id, [o],
                  (st.states bm.1.machine_id).current_time + bm.2 / 60,
                  (st.states bm.1.machine_id).current_time + bm.2 / 60 +
                    estimate_production_time o bm.1, bm.2⟩]) =
                slotsOn mid st.slots := by
              rw [slotsOn_append]
              have hnil : slotsOn mid
                  [(⟨bm.1.machine_id, [o],
                    (st.states bm.1.machine_id).current_time + bm.2 / 60,
                    (st.states bm.1.machine_id).current_time + bm.2 / 60 +
                      estimate_production_time o bm.1, bm.2⟩ :
                    ScheduleSlot)] = [] := by
                simp only [slotsOn, List.filter_cons, List.filter_nil]
                rw [if_neg]
                intro hc
                have hc2 := of_decide_eq_true hc
                exact hid hc2.symm
              rw [hnil, List.append_nil]
            constructor
            · rw [hfilter]
              exact (h.2 mid).1
            · intro lastSlot hl
              rw [hfilter] at hl
              have hstates : (if mid = bm.1.machine_id then
                  (⟨(st.states bm.1.machine_id).current_time + bm.2 / 60 +
                    estimate_production_time o bm.1, o.color,
                    (st.states bm.1.machine_id).orders_today ++
                      [o.order_id]⟩ : MState)
                else st.states mid) = st.states mid := if_neg hid
              dsimp only
              rw [hstates]
              exact (h.2 mid).2 lastSlot hl

/-- The scheduling fold preserves the chain invariant. -/
theorem schedFold_chain (work_end : ℚ) (machines : List Machine) :
    ∀ (os : List Order) (st : SState), ChainInv work_end st →
      ChainInv work_end (os.foldl (processOrder work_end machines) st) := by
  intro os
  induction os with
  | nil => intro st h; exact h
  | cons o os ih =>
    intro st h
    rw [List.foldl_cons]
    exact ih _ (processOrder_chain work_end machines st o h)

end Sched

/-- C6: in every schedule produced by `create_schedule`, the slots
committed to any single machine, taken in assignment order, satisfy
`slot.end_time ≤ next slot.start_time` (the cursor only advances and
setup times are nonnegative), and no committed slot ends after the
work-day end (hour 20 of the target date). -/
theorem C6_slot_ordering :
    ∀ (machines : List Sched.Machine) (orders : List Sched.Order) (td : ℤ)
      (id : String),
      List.Chain' (fun a b => a.end_time ≤ b.start_time)
        ((Sched.create_schedule machines orders td).slots.filter
          fun sl => decide (sl.machine_id = id)) ∧
      ∀ sl ∈ (Sched.create_schedule machines orders td).slots,
        sl.end_time ≤ Sched.WORK_END_HOUR := by
  intro machines orders td id
  have hinit : Sched.ChainInv Sched.WORK_END_HOUR
      { slots := [], unscheduled_orders := [],
        states := Sched.init_machine_states machines } := by
    constructor
    · intro sl hsl
      exact absurd hsl (List.not_mem_nil _)
    · intro id2
      constructor
      · exact List.chain'_nil
      · intro lastSlot hl
        simp [Sched.slotsOn] at hl
  have hinv := Sched.schedFold_chain Sched.WORK_END_HOUR machines
    (Sched.sort_orders_for_scheduling orders)
    { slots := [], unscheduled_orders := [],
      states := Sched.init_machine_states machines } hinit
  exact ⟨(hinv.2 id).1, hinv.1⟩

/-! Claim theorems on machine selection and slot timing (C5). -/

/-- Splitting a filtered list around an element splits the original
list, with the earlier part filtering to the earlier filtered part. -/
theorem filter_eq_append_split {α : Type} (p : α → Bool) :
    ∀ (ms l₁ l₂ : List α) (c : α),
      ms.filter p = l₁ ++ c :: l₂ →
      ∃ m₁ m₂, ms = m₁ ++ c :: m₂ ∧ m₁.filter p = l₁ := by
  intro ms
  induction ms with
  | nil =>
    intro l₁ l₂ c h
    rw [List.filter_nil] at h
    exact absurd h (by simp)
  | cons a ms ih =>
    intro l₁ l₂ c h
    rw [List.filter_cons] at h
    by_cases hpa : p a = true
    · rw [if_pos hpa] at h
      cases l₁ with
      | nil =>
        simp only [List.nil_append] at h
        have hac : a = c := ((List.cons.injEq _ _ _ _).mp h).1
        refine ⟨[], ms, ?_, rfl⟩
        rw [List.nil_append, hac]
      | cons b t =>
        rw [List.cons_append] at h
        have hab : a = b := ((List.cons.injEq _ _ _ _).mp h).1
        have ht : ms.filter p = t ++ c :: l₂ :=
          ((List.cons.injEq _ _ _ _).mp h).2
        obtain ⟨m₁, m₂, hms, hfil⟩ := ih t l₂ c ht
        refine ⟨a :: m₁, m₂, ?_, ?_⟩
        · rw [List.cons_append, hms]
        · rw [List.filter_cons, if_pos hpa, hfil, hab]
    · rw [if_neg hpa] at h
      obtain ⟨m₁, m₂, hms, hfil⟩ := ih l₁ l₂ c h
      refine ⟨a :: m₁, m₂, ?_, ?_⟩
      · rw [List.cons_append, hms]
      · rw [List.filter_cons, if_neg hpa, hfil]

namespace Sched

/-- A machine at its per-cycle item limit is skipped. -/
theorem selStep_skip (states : String → MState) (order_color : String)
    (acc : Option (Machine × ℚ)) (m : Machine)
    (h : belowLimit states m = false) :
    selStep states order_color acc m = acc := by
  simp only [selStep]
  rw [if_pos]
  exact Nat.le_of_not_lt (of_decide_eq_false h)

/-- A machine below its limit replaces the best exactly on a strictly
smaller setup time. -/
theorem selStep_go (states : String → MState) (order_color : String)
    (b m : Machine) (h : belowLimit states m = true) :
    selStep states order_color (some (b, setupKey states order_color b)) m =
      some ((if setupKey states order_color m <
          setupKey states order_color b then m else b),
        setupKey states order_color
          (if setupKey states order_color m <
            setupKey states order_color b then m else b)) := by
  have hsk : ∀ mm : Machine,
      calculate_setup_time (states mm.machine_id).current_color order_color =
        setupKey states order_color mm := fun _ => rfl
  simp only [selStep, hsk]
  rw [if_neg (Nat.not_le.mpr (of_decide_eq_true h))]
  by_cases hlt : setupKey states order_color m < setupKey states order_color b
  · simp [hlt]
  · simp [hlt]

/-- A first machine below its limit seeds the running best with its own
setup time. -/
theorem selStep_none (states : String → MState) (order_color : String)
    (m : Machine) (h : belowLimit states m = true) :
    selStep states order_color none m =
      some (m, setupKey states order_color m) := by
  simp only [selStep]
  rw [if_neg (Nat.not_le.mpr (of_decide_eq_true h))]
  rfl

/-- With a seeded best, the selection fold computes the first minimum of
the setup key over the below-limit machines. -/
theorem selGo_some (states : String → MState) (order_color : String) :
    ∀ (ms : List Machine) (b : Machine),
      ms.foldl (selStep states order_color)
        (some (b, setupKey states order_color b)) =
      some (Routing.minBy (setupKey states order_color) b
          (ms.filter (belowLimit states)),
        setupKey states order_color
          (Routing.minBy (setupKey states order_color) b
            (ms.filter (belowLimit states)))) := by
  intro ms
  induction ms with
  | nil => intro b; rfl
  | cons m ms ih =>
    intro b
    rw [List.foldl_cons]
    cases hbl : belowLimit states m with
    | false =>
      rw [selStep_skip states order_color _ m hbl]
      rw [List.filter_cons, if_neg (by simp [hbl])]
      exact ih b
    | true =>
      rw [selStep_go states order_color b m hbl]
      rw [List.filter_cons, if_pos hbl]
      rw [ih (if setupKey states order_color m <
        setupKey states order_color b then m else b)]
      rw [Routing.minBy_cons]

/-- The machine-selection loop equals: filter to the below-limit
machines, then take the first minimum of the setup key (`none` when no
machine qualifies). -/
theorem selectBest_eq (states : String → MState) (order_color : String) :
    ∀ ms : List Machine,
      selectBest states order_color ms =
        match ms.filter (belowLimit states) with
        | [] => none
        | f :: fs =>
          some (Routing.minBy (setupKey states order_color) f fs,
            setupKey states order_color
              (Routing.minBy (setupKey states order_color) f fs)) := by
  intro ms
  induction ms with
  | nil => rfl
  | cons m ms ih =>
    cases hbl : belowLimit states m with
    | false =>
      rw [selectBest, List.foldl_cons,
        selStep_skip states order_color none m hbl]
      rw [List.filter_cons, if_neg (by simp [hbl])]
      exact ih
    | true =>
      rw [selectBest, List.foldl_cons, selStep_none states order_color m hbl]
      rw [List.filter_cons, if_pos hbl]
      rw [selGo_some states order_color ms m]

end Sched

/-- C5 amended: (i) whenever some width-compatible machine is below its
per-cycle item limit the selection loop returns a machine; (ii) the
returned machine is compatible, below its limit, carries its own setup
time, that setup time is minimal among the below-limit machines, and
every earlier below-limit machine in iteration order has a strictly
larger setup time (first minimum wins ties); (iii) when additionally the
computed end time does not exceed the work-day end, the order is
committed to that machine with slot start = cursor + setup time and
end = start + production time; (iv) production time in hours is
`quantity_rolls * 1000 / speed_m_per_min / 60`. -/
theorem C5_machine_selection :
    (∀ (states : String → Sched.MState) (order_color : String)
       (ms : List Sched.Machine),
       ms.filter (Sched.belowLimit states) ≠ [] →
       (Sched.selectBest states order_color ms).isSome) ∧
    (∀ (states : String → Sched.MState) (order_color : String)
       (ms : List Sched.Machine) (m : Sched.Machine) (s : ℚ),
       Sched.selectBest states order_color ms = some (m, s) →
       m ∈ ms ∧ Sched.belowLimit states m = true ∧
       s = Sched.setupKey states order_color m ∧
       (∀ m2 ∈ ms, Sched.belowLimit states m2 = true →
         s ≤ Sched.setupKey states order_color m2) ∧
       ∃ l₁ l₂, ms = l₁ ++ m :: l₂ ∧
         ∀ m2 ∈ l₁, Sched.belowLimit states m2 = true →
           s < Sched.setupKey states order_color m2) ∧
    (∀ (work_end : ℚ) (machines : List Sched.Machine) (st : Sched.SState)
       (o : Sched.Order) (m : Sched.Machine) (s : ℚ),
       Sched.selectBest st.states o.color
         (Sched.get_compatible_machines machines o) = some (m, s) →
       ¬ work_end < (st.states m.machine_id).current_time + s / 60 +
         Sched.estimate_production_time o m →
       Sched.processOrder work_end machines st o =
         { slots := st.slots ++
             [⟨m.machine_id, [o],
               (st.states m.machine_id).current_time + s / 60,
               (st.states m.machine_id).current_time + s / 60 +
                 Sched.estimate_production_time o m, s⟩],
           unscheduled_orders := st.unscheduled_orders,
           states := fun id =>
             if id = m.machine_id then
               ⟨(st.states m.machine_id).current_time + s / 60 +
                 Sched.estimate_production_time o m, o.color,
                 (st.states m.machine_id).orders_today ++ [o.order_id]⟩
             else st.states id }) ∧
    (∀ (o : Sched.Order) (m : Sched.Machine),
       Sched.estimate_production_time o m =
         (o.quantity_rolls : ℚ) * 1000 / m.speed_m_per_min / 60) := by
  refine ⟨?_, ?_, ?_, ?_⟩
  · intro states order_color ms hne
    rw [Sched.selectBest_eq]
    cases hfil : ms.filter (Sched.belowLimit states) with
    | nil => exact absurd hfil hne
    | cons f fs => rfl
  · intro states order_color ms m s h
    rw [Sched.selectBest_eq] at h
    cases hfil : ms.filter (Sched.belowLimit states) with
    | nil =>
      rw [hfil] at h
      exact Option.noConfusion h
    | cons f fs =>
      rw [hfil] at h
      have hpair := (Option.some.injEq _ _).mp h
      have hm : Routing.minBy (Sched.setupKey states order_color) f fs = m :=
        congrArg Prod.fst hpair
      have hs : Sched.setupKey states order_color m = s := by
        rw [← hm]
        exact congrArg Prod.snd hpair
      have hmemfil : m ∈ ms.filter (Sched.belowLimit states) := by
        rw [hfil, ← hm]
        exact Routing.minBy_mem _ fs f
      have hmem := List.mem_filter.mp hmemfil
      refine ⟨hmem.1, hmem.2, hs.symm, ?_, ?_⟩
      · intro m2 hm2 hbl2
        have hm2fil : m2 ∈ ms.filter (Sched.belowLimit states) :=
          List.mem_filter.mpr ⟨hm2, hbl2⟩
        rw [hfil] at hm2fil
        rw [← hs, ← hm]
        exact Routing.minBy_le (Sched.setupKey states order_color) fs f m2
          hm2fil
      · obtain ⟨l₁, l₂, hsplit, hlt⟩ :=
          Routing.minBy_first (Sched.setupKey states order_color) fs f
        rw [hm] at hsplit hlt
        rw [← hfil] at hsplit
        obtain ⟨m₁, m₂, hms, hfil1⟩ :=
          filter_eq_append_split (Sched.belowLimit states) ms l₁ l₂ m hsplit
        refine ⟨m₁, m₂, hms, ?_⟩
        intro m2 hm2 hbl2
        have hmem1 : m2 ∈ l₁ := by
          rw [← hfil1]
          exact List.mem_filter.mpr ⟨hm2, hbl2⟩
        rw [← hs]
        exact hlt m2 hmem1
  · intro work_end machines st o m s h hw
    have hne : Sched.get_compatible_machines machines o ≠ [] := by
      intro hnil
      rw [hnil] at h
      exact Option.noConfusion h
    simp only [Sched.processOrder, List.isEmpty_eq_false.mpr hne,
      Bool.false_eq_true, if_false, h, if_neg hw]
  · intro o m
    rfl

/-- C5 counterexample: the order `bigOrder` (width 500, 10000 rolls) has
two width-compatible machines, both below their per-cycle item limits,
yet `create_schedule` commits it nowhere — its production time exceeds
the work window, so it lands in `unscheduled_orders` — refuting the
frozen claim that such an order is always committed. -/
theorem C5_machine_selection_counterexample :
    Sched.get_compatible_machines Sched.MACHINES bigOrder =
      [⟨"M1", "1호기", 400, 600, 30, 4, true, none⟩,
       ⟨"M2", "2호기", 500, 800, 30, 4, true, none⟩] ∧
    ((Sched.init_machine_states Sched.MACHINES) "M1").orders_today.length <
      4 ∧
    ((Sched.init_machine_states Sched.MACHINES) "M2").orders_today.length <
      4 ∧
    (Sched.create_schedule Sched.MACHINES [bigOrder] 0).slots = [] ∧
    (Sched.create_schedule Sched.MACHINES [bigOrder] 0).unscheduled_orders =
      [bigOrder] := by
  have hsort : Sched.sort_orders_for_scheduling [bigOrder] = [bigOrder] := by
    rw [Sched.sort_orders_for_scheduling]
    exact List.mergeSort_singleton _
  have hcompat : Sched.get_compatible_machines Sched.MACHINES bigOrder =
      [⟨"M1", "1호기", 400, 600, 30, 4, true, none⟩,
       ⟨"M2", "2호기", 500, 800, 30, 4, true, none⟩] := by
    norm_num [Sched.get_compatible_machines, Sched.MACHINES, bigOrder,
      List.filter]
  have hcs : Sched.create_schedule Sched.MACHINES [bigOrder] 0 =
      { date := 0, slots := [], unscheduled_orders := [bigOrder] } := by
    simp only [Sched.create_schedule, hsort, List.foldl_cons, List.foldl_nil]
    norm_num [Sched.processOrder, hcompat, Sched.init_machine_states,
      Sched.initMState, Sched.MACHINES, Sched.selectBest, Sched.selStep,
      Sched.calculate_setup_time, Sched.SETUP_TIME_MATRIX,
      Sched.estimate_production_time, Sched.WORK_END_HOUR,
      Sched.WORK_START_HOUR, bigOrder, List.foldl]
  refine ⟨hcompat, ?_, ?_, ?_, ?_⟩
  · norm_num [Sched.init_machine_states, Sched.initMState, Sched.MACHINES,
      List.foldl]
  · norm_num [Sched.init_machine_states, Sched.initMState, Sched.MACHINES,
      List.foldl]
  · rw [hcs]
  · rw [hcs]

/-- C5 witness: the selection clauses at the default machines with fresh
cursors: some machine is selectable, and the selection is characterized
as the first minimal-setup machine (machine `M1`, setup 10). -/
theorem C5_machine_selection_witness :
    (Sched.MACHINES.filter
        (Sched.belowLimit (Sched.init_machine_states Sched.MACHINES)) ≠ [] ∧
      (Sched.selectBest (Sched.init_machine_states Sched.MACHINES) "CLEAR"
        Sched.MACHINES).isSome) ∧
    (Sched.selectBest (Sched.init_machine_states Sched.MACHINES) "CLEAR"
        Sched.MACHINES =
        some (⟨"M1", "1호기", 400, 600, 30, 4, true, none⟩, 10) ∧
      ((⟨"M1", "1호기", 400, 600, 30, 4, true, none⟩ : Sched.Machine) ∈
          Sched.MACHINES ∧
        Sched.belowLimit (Sched.init_machine_states Sched.MACHINES)
          ⟨"M1", "1호기", 400, 600, 30, 4, true, none⟩ = true ∧
        (10 : ℚ) = Sched.setupKey (Sched.init_machine_states Sched.MACHINES)
          "CLEAR" ⟨"M1", "1호기", 400, 600, 30, 4, true, none⟩)) := by
  have hne : Sched.MACHINES.filter
      (Sched.belowLimit (Sched.init_machine_states Sched.MACHINES)) ≠ [] := by
    simp [Sched.MACHINES, Sched.belowLimit, Sched.init_machine_states,
      Sched.initMState, List.filter, List.foldl]
  have hsel : Sched.selectBest (Sched.init_machine_states Sched.MACHINES)
      "CLEAR" Sched.MACHINES =
      some (⟨"M1", "1호기", 400, 600, 30, 4, true, none⟩, 10) := by
    norm_num [Sched.selectBest, Sched.selStep, Sched.init_machine_states,
      Sched.initMState, Sched.MACHINES, Sched.calculate_setup_time,
      Sched.SETUP_TIME_MATRIX, List.foldl]
  refine ⟨⟨hne, C5_machine_selection.1 _ "CLEAR" _ hne⟩, hsel, ?_, ?_, ?_⟩
  · exact (C5_machine_selection.2.1 _ "CLEAR" _ _ _ hsel).1
  · exact (C5_machine_selection.2.1 _ "CLEAR" _ _ _ hsel).2.1
  · exact (C5_machine_selection.2.1 _ "CLEAR" _ _ _ hsel).2.2.1

/-! Claim theorems on feasibility-shortfall handling (C7). -/

/-- C7 amended: feasibility shortfalls never escape as errors — (i) an
order with no width-compatible machine is appended to the unscheduled
list with slots and cursors untouched; (ii) likewise when no compatible
machine is below its per-cycle item limit (the selection returns
nothing); (iii) likewise when the computed end time would exceed the
work-day end; (iv) in the 650 mm scenario against machines with width
ranges [400,600], [500,800], [700,1200], only the second machine is
compatible, the first four width-650 orders fill it to its item cap, and
the fifth becomes unscheduled while all committed slots sit on `M2`;
(v) the JSON formatter reports every unscheduled order with the single
fixed caller-visible reason tag `capacity_exceeded`, regardless of the
cause. -/
theorem C7_feasibility_shortfalls :
    (∀ (work_end : ℚ) (machines : List Sched.Machine) (st : Sched.SState)
       (o : Sched.Order),
       Sched.get_compatible_machines machines o = [] →
       Sched.processOrder work_end machines st o =
         { st with unscheduled_orders := st.unscheduled_orders ++ [o] }) ∧
    (∀ (work_end : ℚ) (machines : List Sched.Machine) (st : Sched.SState)
       (o : Sched.Order),
       Sched.selectBest st.states o.color
         (Sched.get_compatible_machines machines o) = none →
       Sched.processOrder work_end machines st o =
         { st with unscheduled_orders := st.unscheduled_orders ++ [o] }) ∧
    (∀ (work_end : ℚ) (machines : List Sched.Machine) (st : Sched.SState)
       (o : Sched.Order) (m : Sched.Machine) (s : ℚ),
       Sched.selectBest st.states o.color
         (Sched.get_compatible_machines machines o) = some (m, s) →
       work_end < (st.states m.machine_id).current_time + s / 60 +
         Sched.estimate_production_time o m →
       Sched.processOrder work_end machines st o =
         { st with unscheduled_orders := st.unscheduled_orders ++ [o] }) ∧
    (Sched.get_compatible_machines Sched.MACHINES (ord650 "ORD-5") =
        [⟨"M2", "2호기", 500, 800, 30, 4, true, none⟩] ∧
      (Sched.create_schedule Sched.MACHINES scenOrders 0).unscheduled_orders =
        [ord650 "ORD-5"] ∧
      (Sched.create_schedule Sched.MACHINES scenOrders 0).slots.length = 4 ∧
      ∀ sl ∈ (Sched.create_schedule Sched.MACHINES scenOrders 0).slots,
        sl.machine_id = "M2") ∧
    (∀ schedule : Sched.Schedule, ∀ o ∈ schedule.unscheduled_orders,
      (o.order_id, "capacity_exceeded") ∈ Sched.unscheduledJson schedule) := by
  refine ⟨?_, ?_, ?_, ?_, ?_⟩
  · intro work_end machines st o h
    simp only [Sched.processOrder, h, List.isEmpty_nil, if_true]
  · intro work_end machines st o h
    by_cases hc : Sched.get_compatible_machines machines o = []
    · simp only [Sched.processOrder, hc, List.isEmpty_nil, if_true]
    · simp only [Sched.processOrder, List.isEmpty_eq_false.mpr hc,
        Bool.false_eq_true, if_false, h]
  · intro work_end machines st o m s h hw
    have hne : Sched.get_compatible_machines machines o ≠ [] := by
      intro hnil
      rw [hnil] at h
      exact Option.noConfusion h
    simp only [Sched.processOrder, List.isEmpty_eq_false.mpr hne,
      Bool.false_eq_true, if_false, h, if_pos hw]
  · have hsort : Sched.sort_orders_for_scheduling scenOrders = scenOrders := by
      rw [Sched.sort_orders_for_scheduling]
      exact List.mergeSort_of_sorted (by decide)
    have hcs : Sched.create_schedule Sched.MACHINES scenOrders 0 =
        { date := 0,
          slots := [⟨"M2", [ord650 "ORD-1"], 49 / 6, 157 / 18, 10⟩,
            ⟨"M2", [ord650 "ORD-2"], 80 / 9, 85 / 9, 10⟩,
            ⟨"M2", [ord650 "ORD-3"], 173 / 18, 61 / 6, 10⟩,
            ⟨"M2", [ord650 "ORD-4"], 31 / 3, 98 / 9, 10⟩],
          unscheduled_orders := [ord650 "ORD-5"] } := by
      rw [Sched.create_schedule, hsort]
      simp only [scenOrders, List.foldl_cons, List.foldl_nil]
      norm_num [Sched.processOrder, Sched.get_compatible_machines,
        Sched.MACHINES, Sched.init_machine_states, Sched.initMState,
        Sched.selectBest, Sched.selStep, Sched.calculate_setup_time,
        Sched.SETUP_TIME_MATRIX, Sched.estimate_production_time,
        Sched.WORK_END_HOUR, Sched.WORK_START_HOUR, ord650, List.filter,
        List.foldl]
    refine ⟨?_, ?_, ?_, ?_⟩
    · norm_num [Sched.get_compatible_machines, Sched.MACHINES, ord650,
        List.filter]
    · rw [hcs]
    · rw [hcs]
      rfl
    · rw [hcs]
      intro sl hsl
      simp only [List.mem_cons, List.not_mem_nil, or_false] at hsl
      rcases hsl with rfl | rfl | rfl | rfl <;> rfl
  · intro schedule o ho
    exact List.mem_map.mpr ⟨o, ho, rfl⟩

/-- C7 witness: an order with no machines at all is appended to the
unscheduled list, nothing raised. -/
theorem C7_feasibility_shortfalls_witness :
    Sched.get_compatible_machines [] (ord650 "W") = [] ∧
    Sched.processOrder 20 []
        { slots := [], unscheduled_orders := [],
          states := Sched.init_machine_states [] } (ord650 "W") =
      { slots := [], unscheduled_orders := [] ++ [ord650 "W"],
        states := Sched.init_machine_states [] } :=
  ⟨rfl, C7_feasibility_shortfalls.1 20 []
    { slots := [], unscheduled_orders := [],
      states := Sched.init_machine_states [] } (ord650 "W") rfl⟩

/-- C7 counterexample: the reason tag does not identify the cause — the
JSON formatter hard-codes the single tag `capacity_exceeded` for every
unscheduled order.  The width-2000 order is unscheduled because no
machine is width-compatible, while the 10000-roll order has compatible
machines below their item caps and is unscheduled because its production
time exceeds the work window; both distinct causes are reported with the
identical capacity tag, which names neither of them. -/
theorem C7_feasibility_shortfalls_counterexample :
    Sched.get_compatible_machines Sched.MACHINES orderWide = [] ∧
    Sched.unscheduledJson
        (Sched.create_schedule Sched.MACHINES [orderWide] 0) =
      [("ORD-WIDE", "capacity_exceeded")] ∧
    Sched.get_compatible_machines Sched.MACHINES bigOrder =
      [⟨"M1", "1호기", 400, 600, 30, 4, true, none⟩,
       ⟨"M2", "2호기", 500, 800, 30, 4, true, none⟩] ∧
    ((Sched.init_machine_states Sched.MACHINES) "M1").orders_today.length <
      4 ∧
    ((Sched.init_machine_states Sched.MACHINES) "M2").orders_today.length <
      4 ∧
    Sched.unscheduledJson
        (Sched.create_schedule Sched.MACHINES [bigOrder] 0) =
      [("ORD-BIG", "capacity_exceeded")] := by
  have hcompatW : Sched.get_compatible_machines Sched.MACHINES orderWide =
      [] := by
    norm_num [Sched.get_compatible_machines, Sched.MACHINES, orderWide,
      List.filter]
  have hsortW : Sched.sort_orders_for_scheduling [orderWide] =
      [orderWide] := by
    rw [Sched.sort_orders_for_scheduling]
    exact List.mergeSort_singleton _
  have hcsW : Sched.create_schedule Sched.MACHINES [orderWide] 0 =
      { date := 0, slots := [], unscheduled_orders := [orderWide] } := by
    rw [Sched.create_schedule, hsortW]
    simp only [List.foldl_cons, List.foldl_nil]
    simp only [Sched.processOrder, hcompatW, List.isEmpty_nil, if_true,
      List.nil_append]
  have hcompatB : Sched.get_compatible_machines Sched.MACHINES bigOrder =
      [⟨"M1", "1호기", 400, 600, 30, 4, true, none⟩,
       ⟨"M2", "2호기", 500, 800, 30, 4, true, none⟩] := by
    norm_num [Sched.get_compatible_machines, Sched.MACHINES, bigOrder,
      List.filter]
  have hsortB : Sched.sort_orders_for_scheduling [bigOrder] =
      [bigOrder] := by
    rw [Sched.sort_orders_for_scheduling]
    exact List.mergeSort_singleton _
  have hcsB : Sched.create_schedule Sched.MACHINES [bigOrder] 0 =
      { date := 0, slots := [], unscheduled_orders := [bigOrder] } := by
    rw [Sched.create_schedule, hsortB]
    simp only [List.foldl_cons, List.foldl_nil]
    norm_num [Sched.processOrder, hcompatB, Sched.init_machine_states,
      Sched.initMState, Sched.MACHINES, Sched.selectBest, Sched.selStep,
      Sched.calculate_setup_time, Sched.SETUP_TIME_MATRIX,
      Sched.estimate_production_time, Sched.WORK_END_HOUR,
      Sched.WORK_START_HOUR, bigOrder, List.foldl]
  refine ⟨hcompatW, ?_, hcompatB, ?_, ?_, ?_⟩
  · rw [hcsW]
    rfl
  · norm_num [Sched.init_machine_states, Sched.initMState, Sched.MACHINES,
      List.foldl]
  · norm_num [Sched.init_machine_states, Sched.initMState, Sched.MACHINES,
      List.foldl]
  · rw [hcsB]
    rfl

/-- C6 witness: a concrete committed slot of a one-order schedule ends
by the work-day end, via the claim's work-window clause. -/
theorem C6_slot_ordering_witness :
    (⟨"M2", [ord650 "X"], 49 / 6, 157 / 18, 10⟩ : Sched.ScheduleSlot) ∈
      (Sched.create_schedule Sched.MACHINES [ord650 "X"] 0).slots ∧
    (⟨"M2", [ord650 "X"], 49 / 6, 157 / 18, 10⟩ :
      Sched.ScheduleSlot).end_time ≤ Sched.WORK_END_HOUR := by
  have hsort : Sched.sort_orders_for_scheduling [ord650 "X"] =
      [ord650 "X"] := by
    rw [Sched.sort_orders_for_scheduling]
    exact List.mergeSort_singleton _
  have hcs : Sched.create_schedule Sched.MACHINES [ord650 "X"] 0 =
      { date := 0,
        slots := [⟨"M2", [ord650 "X"], 49 / 6, 157 / 18, 10⟩],
        unscheduled_orders := [] } := by
    rw [Sched.create_schedule, hsort]
    simp only [List.foldl_cons, List.foldl_nil]
    norm_num [Sched.processOrder, Sched.get_compatible_machines,
      Sched.MACHINES, Sched.init_machine_states, Sched.initMState,
      Sched.selectBest, Sched.selStep, Sched.calculate_setup_time,
      Sched.SETUP_TIME_MATRIX, Sched.estimate_production_time,
      Sched.WORK_END_HOUR, Sched.WORK_START_HOUR, ord650, List.filter,
      List.foldl]
  have hmem : (⟨"M2", [ord650 "X"], 49 / 6, 157 / 18, 10⟩ :
      Sched.ScheduleSlot) ∈
      (Sched.create_schedule Sched.MACHINES [ord650 "X"] 0).slots := by
    rw [hcs]
    simp
  exact ⟨hmem,
    (C6_slot_ordering Sched.MACHINES [ord650 "X"] 0 "M2").2 _ hmem⟩
